import Mathlib

/-!
# DeeperDive Publisher Config Tool — verification of the specified behaviour

A shallow embedding of the client-side JSON editor (value classifier,
primitive / array / object editors, diff renderer) and of the Express
file-store server (save with version history, version listing), together
with theorems settling the specified properties.

JSON values are modelled by the inductive type `Json`; JavaScript objects
are insertion-ordered association lists, mirroring `Object.keys` order.
`JSON.parse(JSON.stringify(v))` on such values is the identity, so deep
cloning is embedded as `id`.
-/

/-- A JSON value as handled by the editor: string, number, boolean, null,
array, or object (insertion-ordered key/value list). Numbers that occur in
the configurations under test are integers. -/
inductive Json where
  | str  : String → Json
  | num  : Int → Json
  | bool : Bool → Json
  | null : Json
  | arr  : List Json → Json
  | obj  : List (String × Json) → Json

mutual

/-- Boolean equality on `Json`, used to derive decidable equality. -/
def Json.beq : Json → Json → Bool
  | .str a, .str b => a == b
  | .num a, .num b => a == b
  | .bool a, .bool b => a == b
  | .null, .null => true
  | .arr xs, .arr ys => beqJsonList xs ys
  | .obj xs, .obj ys => beqJsonPairs xs ys
  | _, _ => false

/-- Boolean equality on lists of `Json`. -/
def beqJsonList : List Json → List Json → Bool
  | [], [] => true
  | x :: xs, y :: ys => Json.beq x y && beqJsonList xs ys
  | _, _ => false

/-- Boolean equality on key/value lists. -/
def beqJsonPairs : List (String × Json) → List (String × Json) → Bool
  | [], [] => true
  | (k1, v1) :: xs, (k2, v2) :: ys => k1 == k2 && Json.beq v1 v2 && beqJsonPairs xs ys
  | _, _ => false

end

mutual

theorem Json.eq_of_beq : ∀ {a b : Json}, Json.beq a b = true → a = b
  | .str a, .str b, h => by simp [Json.beq] at h; rw [h]
  | .num a, .num b, h => by simp [Json.beq] at h; rw [h]
  | .bool a, .bool b, h => by simp [Json.beq] at h; rw [h]
  | .null, .null, _ => rfl
  | .arr xs, .arr ys, h => by
      simp only [Json.beq] at h; exact congrArg Json.arr (eqList_of_beqJsonList h)
  | .obj xs, .obj ys, h => by
      simp only [Json.beq] at h; exact congrArg Json.obj (eqPairs_of_beqJsonPairs h)
  | .str _, .num _, h => nomatch h
  | .str _, .bool _, h => nomatch h
  | .str _, .null, h => nomatch h
  | .str _, .arr _, h => nomatch h
  | .str _, .obj _, h => nomatch h
  | .num _, .str _, h => nomatch h
  | .num _, .bool _, h => nomatch h
  | .num _, .null, h => nomatch h
  | .num _, .arr _, h => nomatch h
  | .num _, .obj _, h => nomatch h
  | .bool _, .str _, h => nomatch h
  | .bool _, .num _, h => nomatch h
  | .bool _, .null, h => nomatch h
  | .bool _, .arr _, h => nomatch h
  | .bool _, .obj _, h => nomatch h
  | .null, .str _, h => nomatch h
  | .null, .num _, h => nomatch h
  | .null, .bool _, h => nomatch h
  | .null, .arr _, h => nomatch h
  | .null, .obj _, h => nomatch h
  | .arr _, .str _, h => nomatch h
  | .arr _, .num _, h => nomatch h
  | .arr _, .bool _, h => nomatch h
  | .arr _, .null, h => nomatch h
  | .arr _, .obj _, h => nomatch h
  | .obj _, .str _, h => nomatch h
  | .obj _, .num _, h => nomatch h
  | .obj _, .bool _, h => nomatch h
  | .obj _, .null, h => nomatch h
  | .obj _, .arr _, h => nomatch h

theorem eqList_of_beqJsonList : ∀ {a b : List Json}, beqJsonList a b = true → a = b
  | [], [], _ => rfl
  | x :: xs, y :: ys, h => by
      simp only [beqJsonList, Bool.and_eq_true] at h
      rw [Json.eq_of_beq h.1, eqList_of_beqJsonList h.2]
  | [], _ :: _, h => nomatch h
  | _ :: _, [], h => nomatch h

theorem eqPairs_of_beqJsonPairs : ∀ {a b : List (String × Json)}, beqJsonPairs a b = true → a = b
  | [], [], _ => rfl
  | (k1, v1) :: xs, (k2, v2) :: ys, h => by
      simp only [beqJsonPairs, Bool.and_eq_true] at h
      obtain ⟨⟨hk, hv⟩, ht⟩ := h
      rw [eq_of_beq hk, Json.eq_of_beq hv, eqPairs_of_beqJsonPairs ht]
  | [], _ :: _, h => nomatch h
  | _ :: _, [], h => nomatch h

end

mutual

theorem Json.beq_refl : ∀ a : Json, Json.beq a a = true
  | .str a => by simp [Json.beq]
  | .num a => by simp [Json.beq]
  | .bool a => by simp [Json.beq]
  | .null => rfl
  | .arr xs => by simp only [Json.beq]; exact beqJsonList_refl xs
  | .obj xs => by simp only [Json.beq]; exact beqJsonPairs_refl xs

theorem beqJsonList_refl : ∀ a : List Json, beqJsonList a a = true
  | [] => rfl
  | x :: xs => by
      simp only [beqJsonList, Bool.and_eq_true]
      exact ⟨Json.beq_refl x, beqJsonList_refl xs⟩

theorem beqJsonPairs_refl : ∀ a : List (String × Json), beqJsonPairs a a = true
  | [] => rfl
  | (k, v) :: xs => by
      simp only [beqJsonPairs, Bool.and_eq_true, beq_self_eq_true, true_and]
      exact ⟨Json.beq_refl v, beqJsonPairs_refl xs⟩

end

instance : DecidableEq Json := fun a b =>
  if h : Json.beq a b = true then .isTrue (Json.eq_of_beq h)
  else .isFalse (fun he => h (he ▸ Json.beq_refl a))

/-- Embeds JavaScript `typeof v` for the values representable as `Json`
(`typeof null` is `"object"`). -/
def jsTypeof : Json → String
  | .str _  => "string"
  | .num _  => "number"
  | .bool _ => "boolean"
  | .null   => "object"
  | .arr _  => "object"
  | .obj _  => "object"

/-- Embeds `Array.isArray(v)`. -/
def jsIsArray : Json → Bool
  | .arr _ => true
  | _      => false

/-- Embeds `v === null`. -/
def jsIsNull : Json → Bool
  | .null => true
  | _     => false

/-- Embeds `JSON.parse(JSON.stringify(v))`: on the JSON values modelled here
(no `undefined`, no functions) this round-trip is the identity, so the deep
clone is the value itself. -/
def jsonDeepClone (v : Json) : Json := v

/-- The four render categories returned by `FormField.getFieldType`. -/
inductive FieldKind where
  | boolean | array | object | primitive
deriving DecidableEq, Repr

/-- Embeds `FormField.getFieldType`
(`src/public/features/publisher-configuration/components/form-field/form-field.ts`):
`typeof value === "boolean"` first, then `Array.isArray(value)`, then
`typeof value === "object" && value !== null`, else primitive. -/
def getFieldType (value : Json) : FieldKind :=
  if jsTypeof value = "boolean" then .boolean
  else if jsIsArray value then .array
  else if jsTypeof value = "object" && !jsIsNull value then .object
  else .primitive

/-- The classification demanded by the spec's words, stated independently of
the source: booleans are `boolean`, arrays (including the empty array) are
`array`, non-null non-array mappings are `object`, strings and numbers are
`primitive`, and null is defensively `primitive`. -/
def classifySpec : Json → FieldKind
  | .bool _ => .boolean
  | .arr _  => .array
  | .obj _  => .object
  | .str _  => .primitive
  | .num _  => .primitive
  | .null   => .primitive

/-- Embeds `this.arrayData.splice(index, 1)` as used by
`ArrayField.createDeleteButton`: removal of the single element at `index`. -/
def spliceRemove : List Json → Nat → List Json
  | [], _ => []
  | _ :: xs, 0 => xs
  | x :: xs, i + 1 => x :: spliceRemove xs i

/-- Indentation: `n` space characters: the indentation `JSON.stringify(v, null, 2)` emits
at nesting depth `n / 2`. -/
def indentStr (n : Nat) : String := String.mk (List.replicate n ' ')

/-- The escaping `JSON.stringify` applies to the characters that can occur in
the documents under study (quote, backslash, and the common control
characters); all other characters are emitted verbatim. -/
def jsonEscapeChar (c : Char) : String :=
  if c = '"' then "\\\"" else if c = '\\' then "\\\\"
  else if c = '\n' then "\\n" else if c = '\t' then "\\t"
  else if c = '\r' then "\\r" else String.singleton c

/-- A JSON string literal: quotes around the escaped contents. -/
def jsonQuote (s : String) : String :=
  "\"" ++ String.join (s.data.map jsonEscapeChar) ++ "\""

mutual

/-- Embeds `JSON.stringify(v, null, 2)` at indentation level `ind`: 2-space
indentation, `"key": value` rows, `[]`/`{}` for empty containers. -/
def stringifyPrettyAux : Nat → Json → String
  | _, .null => "null"
  | _, .bool b => cond b "true" "false"
  | _, .num n => toString n
  | _, .str s => jsonQuote s
  | _, .arr [] => "[]"
  | ind, .arr (x :: xs) =>
      "[\n" ++ String.intercalate ",\n" (stringifyPrettyList (ind + 2) (x :: xs))
        ++ "\n" ++ indentStr ind ++ "]"
  | _, .obj [] => "\x7b\x7d"
  | ind, .obj (kv :: kvs) =>
      "\x7b\n" ++ String.intercalate ",\n" (stringifyPrettyPairs (ind + 2) (kv :: kvs))
        ++ "\n" ++ indentStr ind ++ "\x7d"

/-- The rows of a pretty-printed array, each indented by `ind` spaces. -/
def stringifyPrettyList : Nat → List Json → List String
  | _, [] => []
  | ind, x :: xs =>
      (indentStr ind ++ stringifyPrettyAux ind x) :: stringifyPrettyList ind xs

/-- The rows of a pretty-printed object, each indented by `ind` spaces. -/
def stringifyPrettyPairs : Nat → List (String × Json) → List String
  | _, [] => []
  | ind, (k, v) :: kvs =>
      (indentStr ind ++ jsonQuote k ++ ": " ++ stringifyPrettyAux ind v)
        :: stringifyPrettyPairs ind kvs

end

/-- Embeds `JSON.stringify(v, null, 2)`, the serialization the diff renderer
feeds to `diffLines` and the download/persistence format. -/
def stringifyPretty (v : Json) : String := stringifyPrettyAux 0 v

mutual

/-- Embeds compact `JSON.stringify(v)` (no indent argument), the form
`saveChanges` compares for its no-op check. -/
def stringifyCompact : Json → String
  | .null => "null"
  | .bool b => cond b "true" "false"
  | .num n => toString n
  | .str s => jsonQuote s
  | .arr xs => "[" ++ String.intercalate "," (stringifyCompactList xs) ++ "]"
  | .obj kvs => "\x7b" ++ String.intercalate "," (stringifyCompactPairs kvs) ++ "\x7d"

/-- Compact serializations of the elements of an array. -/
def stringifyCompactList : List Json → List String
  | [] => []
  | x :: xs => stringifyCompact x :: stringifyCompactList xs

/-- Compact serializations of the entries of an object. -/
def stringifyCompactPairs : List (String × Json) → List String
  | [] => []
  | (k, v) :: kvs => (jsonQuote k ++ ":" ++ stringifyCompact v) :: stringifyCompactPairs kvs

end

example :
    stringifyPretty (.obj [("a", .num 1), ("b", .num 2)])
      = "\x7b\n  \"a\": 1,\n  \"b\": 2\n\x7d" := by decide

example :
    stringifyCompact (.obj [("a", .num 1), ("pages", .arr [.str "x"])])
      = "\x7b\"a\":1,\"pages\":[\"x\"]\x7d" := by decide

/-- Embeds `ArrayField.generateNewItemFromTemplate` (first `ArrayField`
variant in `src/public/form-field/components/array-field/array-field.ts`):
non-null objects are deep-cloned via `JSON.parse(JSON.stringify(...))`,
number templates give `0`, boolean templates give `false`, anything else
gives the empty string. -/
def generateNewItemFromTemplate (template : Json) : Json :=
  if jsTypeof template = "object" && !jsIsNull template then jsonDeepClone template
  else if jsTypeof template = "number" then .num 0
  else if jsTypeof template = "boolean" then .bool false
  else .str ""

/-- Embeds the first variant's `ArrayField.handleAddItem`: the template is
the last existing item when the array is non-empty, else the `itemTemplate`
argument (a deep clone of the first item, or null); `newItem` starts as the
empty string and is synthesized from the template when one exists; the new
item is pushed onto the array. -/
def handleAddItemV1 (arrayData : List Json) (itemTemplate : Option Json) : List Json :=
  let template : Option Json :=
    if arrayData.length > 0 then arrayData[arrayData.length - 1]? else itemTemplate
  let newItem : Json :=
    match template with
    | some t => generateNewItemFromTemplate t
    | none => .str ""
  arrayData ++ [newItem]

/-- Embeds the second variant's `ArrayField.createTemplate`: for a non-null
`typeof "object"` value it builds an object over `Object.keys(item)` whose
every field is assigned the empty string (the source's inner branch assigns
`""` whether or not the field value is itself an object); for any other item
it returns the empty string. `Object.keys` of an array yields its index
strings. -/
def createTemplate (item : Json) : Json :=
  if jsTypeof item = "object" && !jsIsNull item then
    match item with
    | .obj kvs =>
        .obj (kvs.map (fun kv =>
          if jsTypeof kv.2 = "object" && !jsIsNull kv.2 then (kv.1, Json.str "")
          else (kv.1, Json.str "")))
    | .arr xs => .obj ((List.range xs.length).map (fun i => (toString i, Json.str "")))
    | _ => .str ""
  else .str ""

/-- The second `ArrayField` variant's component state: the array being edited
plus the cached `itemTemplate` field. -/
structure ArrayFieldState where
  arrayData : List Json
  itemTemplate : Option Json

/-- Embeds the second variant's constructor: when the array is non-empty it
caches `createTemplate(this.arrayData[0])` in `itemTemplate`. -/
def arrayFieldInit (arrayData : List Json) : ArrayFieldState :=
  { arrayData := arrayData
    itemTemplate :=
      match arrayData with
      | [] => none
      | item :: _ => some (createTemplate item) }

/-- Embeds the second variant's `handleAddItem`: if a template is cached, the
new item is its deep clone when it is `typeof "object"`, else the template
itself; otherwise, with a non-empty array, a template is derived from the
last item and cached; otherwise the empty string is pushed. -/
def handleAddItemV2 (s : ArrayFieldState) : ArrayFieldState :=
  match s.itemTemplate with
  | some t =>
      let newItem := if jsTypeof t = "object" then jsonDeepClone t else t
      { s with arrayData := s.arrayData ++ [newItem] }
  | none =>
      match s.arrayData.getLast? with
      | some last =>
          let newItem := createTemplate last
          { arrayData := s.arrayData ++ [newItem], itemTemplate := some newItem }
      | none => { s with arrayData := s.arrayData ++ [Json.str ""] }

/-- The existing `pages` item of the spec's end-to-end example. -/
def pageItem : Json :=
  .obj [("pageType", .str "home"), ("selector", .str "#x"), ("position", .str "top")]

/-- The structural clone of `pageItem` with its string fields blanked, the
value the claim says add-item appends. -/
def blankedPageItem : Json :=
  .obj [("pageType", .str ""), ("selector", .str ""), ("position", .str "")]

/-- Embeds JavaScript `String.prototype.trim()` char-wise (the core library's
`Substring`-based trim does not reduce in the kernel): strip leading and
trailing whitespace. -/
def jsTrim (s : String) : String :=
  String.mk (((s.data.dropWhile Char.isWhitespace).reverse.dropWhile Char.isWhitespace).reverse)

/-- A document: the top-level configuration object as an insertion-ordered
key/value list (JavaScript object semantics). -/
abbrev Doc := List (String × Json)

/-- Embeds the `key in fields` membership test. -/
def hasKey (fields : Doc) (key : String) : Bool :=
  fields.any (fun kv => kv.1 == key)

/-- Embeds `fields[key] = value` for a key not yet present: JavaScript
appends the new key at the end of the insertion order. -/
def insertKey (fields : Doc) (key : String) (value : Json) : Doc :=
  fields ++ [(key, value)]

/-- The session-constant required-field list (`object-field.ts`). -/
def requiredFields : List String :=
  ["publisherId", "aliasName", "pages",
   "publisherDashboard", "monitorDashboard", "qaStatusDashboard"]

/-- The `FieldType` enum (`src/public/shared/enums.ts`). -/
inductive FieldType where
  | string | number | boolean | array | object
deriving DecidableEq, Repr

/-- Embeds the `switch (type)` of `AddField.handleAdd` choosing the
type-appropriate default initial value. -/
def initialValueFor : FieldType → Json
  | .number  => .num 0
  | .boolean => .bool false
  | .array   => .arr []
  | .object  => .obj []
  | .string  => .str ""

/-- Outcome of an add-field attempt: rejection with the snackbar message
shown to the user, or success. -/
inductive AddFieldResult where
  | rejected (message : String)
  | added
deriving DecidableEq, Repr

/-- Embeds `AddField.handleAdd` (trim, empty-name check, default initial
value) composed with the `onAdd` callback installed by
`PublisherConfiguration.createAddFieldUI` (duplicate-key and required-key
rejection, else insertion); returns the user-visible outcome together with
the resulting document. -/
def handleAddField (fields : Doc) (rawKey : String) (ftype : FieldType) :
    AddFieldResult × Doc :=
  let key := jsTrim rawKey
  if key = "" then (.rejected "Field name cannot be empty", fields)
  else
    let initialValue := initialValueFor ftype
    if hasKey fields key then (.rejected "Field already exists", fields)
    else if requiredFields.contains key then
      (.rejected "Cannot add a required field manually", fields)
    else (.added, insertKey fields key initialValue)

/-- A JavaScript number as produced by `Number(text)`: NaN or an integer
(the inputs exercised here are integral). -/
inductive JsNumber where
  | nan
  | int (n : Int)
deriving DecidableEq, Repr

/-- A primitive editor value: string or number (`PrimitiveType` in
`boolean-field.ts`'s second, `PrimitiveField`, class). -/
inductive PrimValue where
  | str (s : String)
  | num (v : JsNumber)
deriving DecidableEq, Repr

/-- Embeds `typeof this.value` for the primitive editor's two value kinds. -/
def primTypeof : PrimValue → String
  | .str _ => "string"
  | .num _ => "number"

/-- Accumulate a run of decimal digits into a number; `none` when a
non-digit is hit. -/
def digitsToNatAux : List Char → Nat → Option Nat
  | [], acc => some acc
  | c :: rest, acc =>
      if c.isDigit then digitsToNatAux rest (acc * 10 + (c.toNat - '0'.toNat))
      else none

/-- Modelled from the spec: the JavaScript `Number(text)` conversion invoked
by `PrimitiveField`'s input listener is a browser built-in, not code of this
repository. Per the spec's policy, non-numeric text "yields NaN", propagated
as-is; empty or all-whitespace text converts to 0 and integral text to its
value. -/
def jsNumberOfText (text : String) : JsNumber :=
  match (jsTrim text).data with
  | [] => .int 0
  | '-' :: rest =>
      match rest, digitsToNatAux rest 0 with
      | _ :: _, some n => .int (-(n : Int))
      | _, _ => .nan
  | cs =>
      match digitsToNatAux cs 0 with
      | some n => .int n
      | none => .nan

/-- Embeds the `input` listener of `PrimitiveField.render`: the written-back
value is `Number(val)` when `typeof this.value === "number"` — `this.value`
being the constructor-time initial value, which the listener never
reassigns — and the raw input string otherwise. -/
def primitiveFieldWriteBack (initial : PrimValue) (inputText : String) : PrimValue :=
  if primTypeof initial = "number" then .num (jsNumberOfText inputText)
  else .str inputText

/-- The values written back over a sequence of user edits within one
`PrimitiveField` instance: every edit re-runs the same listener with the
same captured `this.value`. -/
def primitiveFieldWrites (initial : PrimValue) (edits : List String) : List PrimValue :=
  edits.map (primitiveFieldWriteBack initial)

/-- Embeds `CompareConfiguration.loadVersions`' post-processing of the
store-returned version array: `versions.shift()` removes the first element
when the array is non-empty, and the remainder becomes
`this.availableVersions`. -/
def loadVersionsAvailable (versions : List Nat) : List Nat :=
  if versions.length > 0 then versions.tail else versions

/-- Embeds `CompareConfiguration.updateVersionSelect`: the dropdown keeps
the `"current"` option and appends one option per available version, valued
`v.toString()`. -/
def versionSelectOptionValues (availableVersions : List Nat) : List String :=
  "current" :: availableVersions.map toString

/-- The server-side store for one publisher file (`src/src/server.ts`): the
current content of the data file and the history directory — absent, or
present with the version numbers of its `v<n>.json` snapshot files (most
recently created first). -/
structure StoreState where
  content : Option Json
  historyDir : Option (List Nat)
deriving DecidableEq

/-- The maximum existing version of a store, as computed by the PUT handler:
`Math.max(...versions)` when any snapshot exists, else 0. -/
def storeMaxVersion (s : StoreState) : Nat :=
  (s.historyDir.getD []).foldr max 0

/-- Embeds `PUT /api/publisher/:filename`: ensure the history directory
exists, read the version numbers off the `v*.json` files,
`newVersion = maxVersion + 1`, write the main file and the new snapshot,
and respond with the new version number. -/
def putPublisher (s : StoreState) (body : Json) : StoreState × Nat :=
  let versions := s.historyDir.getD []
  let newVersion := versions.foldr max 0 + 1
  ({ content := some body, historyDir := some (newVersion :: versions) }, newVersion)

/-- The version numbers returned by a sequence of saves of `bodies`, oldest
first, starting from store `s`. -/
def saveSeq (s : StoreState) : List Json → List Nat
  | [] => []
  | b :: bs => (putPublisher s b).2 :: saveSeq (putPublisher s b).1 bs

/-- Embeds `.sort((a, b) => b - a)`: numeric descending order. -/
def sortDesc (l : List Nat) : List Nat := l.insertionSort (· ≥ ·)

/-- Response of the versions endpoint: HTTP 200 with a version list, or
HTTP 500. -/
inductive VersionsResponse where
  | ok (versions : List Nat)
  | serverError
deriving DecidableEq, Repr

/-- Embeds `GET /api/publisher/:filename/versions`: when the history
directory does not exist respond 200 with `[]`; otherwise respond with the
version numbers sorted descending. -/
def getVersionsEndpoint (s : StoreState) : VersionsResponse :=
  match s.historyDir with
  | none => .ok []
  | some versions => .ok (sortDesc versions)

/-- Embeds `initializeHistory` for one data file: when the file exists with
parseable content and has no history directory yet, create the directory and
snapshot the current content as `v1.json`. -/
def initializeHistory (s : StoreState) : StoreState :=
  match s.historyDir, s.content with
  | none, some _ => { s with historyDir := some [1] }
  | _, _ => s

/-- Outcome of `PublisherConfiguration.saveChanges`: the "No changes were
made" info snackbar (early return), or the confirm dialog wrapping the PUT. -/
inductive SaveOutcome where
  | noChangesNotice
  | confirmDialog
deriving DecidableEq, Repr

/-- Embeds the guard of `PublisherConfiguration.saveChanges`:
`JSON.stringify(this.publisherConfig) === JSON.stringify(this.initialConfig)`
short-circuits with the info snackbar before any request is made. -/
def saveChanges (publisherConfig initialConfig : Json) : SaveOutcome :=
  if stringifyCompact publisherConfig = stringifyCompact initialConfig then .noChangesNotice
  else .confirmDialog

/-- The effect of one `saveChanges` call on the store: the no-changes branch
returns before `api.put`, so the store is untouched; otherwise the PUT runs
once the user confirms the dialog. -/
def saveChangesEffect (publisherConfig initialConfig : Json) (store : StoreState)
    (confirmed : Bool) : StoreState :=
  match saveChanges publisherConfig initialConfig with
  | .noChangesNotice => store
  | .confirmDialog =>
      if confirmed then (putPublisher store publisherConfig).1 else store

/-- A change object as produced by the `diff` library's `diffLines`: one run
of consecutive lines flagged added, removed, or neither. -/
structure Change where
  value : String
  added : Bool
  removed : Bool
deriving DecidableEq

/-- The `DiffType` enum (`src/public/shared/enums.ts`). -/
inductive DiffType where
  | added | removed | unchanged
deriving DecidableEq, Repr

/-- The enum's string value, interpolated into each line's class list. -/
def DiffType.text : DiffType → String
  | .added => "added"
  | .removed => "removed"
  | .unchanged => "unchanged"

/-- Embeds `part.value.replace(/\n$/, "")`: strip one trailing newline
(char-wise, since the core regex-free equivalent `String.endsWith` does not
reduce in the kernel). -/
def dropTrailingNewline (s : String) : String :=
  match s.data.getLast? with
  | some '\n' => String.mk s.data.dropLast
  | _ => s

/-- Split a character list at every newline, JavaScript `.split("\n")`:
`n` newlines yield `n + 1` pieces. -/
def splitNewlinesAux : List Char → List Char → List String
  | [], acc => [String.mk acc.reverse]
  | '\n' :: rest, acc => String.mk acc.reverse :: splitNewlinesAux rest []
  | c :: rest, acc => splitNewlinesAux rest (c :: acc)

/-- Embeds `part.value.replace(/\n$/, "").split("\n")`, the lines of one
change part rendered by `createDiffHtml`. -/
def changeLines (c : Change) : List String :=
  splitNewlinesAux (dropTrailingNewline c.value).data []

/-- Embeds the part classification of `createDiffHtml`: `part.added` first,
then `part.removed`, else unchanged. -/
def changeType (c : Change) : DiffType :=
  if c.added then .added else if c.removed then .removed else .unchanged

/-- Embeds the content-marker choice of `createDiffHtml`: `"+ "` for added,
`"- "` for removed, two spaces otherwise. -/
def changeMarker (c : Change) : String :=
  if c.added then "+ " else if c.removed then "- " else "  "

/-- Embeds the HTML escaping of a content line
(`replace(/&/g, "&amp;").replace(/</g, "&lt;").replace(/>/g, "&gt;")`),
char-wise — equivalent because no replacement string contains `<` or `>`. -/
def escapeHtml (s : String) : String :=
  String.join (s.data.map (fun c =>
    if c = '&' then "&amp;" else if c = '<' then "&lt;"
    else if c = '>' then "&gt;" else String.singleton c))

/-- One rendered diff line: the data one iteration of `createDiffHtml`'s
inner loop computes — classification, content marker, the `lineNumDisplay`
string, the escaped content — plus the counter values after the iteration. -/
structure DiffLine where
  type : DiffType
  contentMarker : String
  lineNumDisplay : String
  content : String
  oldAfter : Nat
  newAfter : Nat
deriving DecidableEq

/-- Embeds the inner `lines.forEach` of `createDiffHtml` over one part's
lines, threading `oldLineNum` and `newLineNum`: an added line displays and
post-increments only the new counter, a removed line only the old counter,
an unchanged line displays `` `${old}  ${new}` `` and post-increments both. -/
def renderPartLines (c : Change) : List String → Nat → Nat → List DiffLine × Nat × Nat
  | [], o, n => ([], o, n)
  | line :: rest, o, n =>
      let step : String × Nat × Nat :=
        if c.added then (toString n, o, n + 1)
        else if c.removed then (toString o, o + 1, n)
        else (toString o ++ "  " ++ toString n, o + 1, n + 1)
      let tail := renderPartLines c rest step.2.1 step.2.2
      ({ type := changeType c, contentMarker := changeMarker c,
         lineNumDisplay := step.1, content := escapeHtml line,
         oldAfter := step.2.1, newAfter := step.2.2 } :: tail.1, tail.2)

/-- Embeds the outer `diffs.forEach` of `createDiffHtml`, threading the two
counters across parts. -/
def renderDiffAux : List Change → Nat → Nat → List DiffLine × Nat × Nat
  | [], o, n => ([], o, n)
  | c :: cs, o, n =>
      let r := renderPartLines c (changeLines c) o n
      let rest := renderDiffAux cs r.2.1 r.2.2
      (r.1 ++ rest.1, rest.2)

/-- The sequence of lines `createDiffHtml` renders, both counters starting
at 1. -/
def createDiffLines (diffs : List Change) : List DiffLine :=
  (renderDiffAux diffs 1 1).1

/-- The HTML template appended for one line by `createDiffHtml`, verbatim:
the `diff-line__number` cell is filled with the content marker
(`${contentPrefix}` in the source) and the computed `lineNumDisplay` is not
interpolated anywhere. -/
def diffLineHtml (l : DiffLine) : String :=
  "\n          <div class=\"diff-line " ++ l.type.text
    ++ "\">\n            <div class=\"diff-line__number\">" ++ l.contentMarker
    ++ "</div>\n            <div class=\"diff-line__content\">" ++ l.content
    ++ "</div>\n          </div>\n        "

/-- Embeds `CompareConfiguration.createDiffHtml` (identical in both variants,
`part_007` and `part_008`): the concatenated per-line HTML. -/
def createDiffHtml (diffs : List Change) : String :=
  String.join ((createDiffLines diffs).map diffLineHtml)

/-- Whether `pat` occurs as a contiguous run inside `l`: a linear scan used
to evaluate substring (non-)occurrence inside the rendered HTML. -/
def hasSubstring (pat : List Char) : List Char → Bool
  | [] => pat.isEmpty
  | c :: rest => pat.isPrefixOf (c :: rest) || hasSubstring pat rest

/-- Baseline `{"a":1,"b":2}` of the spec's concrete diff case. -/
def baselineAB2 : Json := .obj [("a", .num 1), ("b", .num 2)]

/-- Current `{"a":1,"b":3}` of the spec's concrete diff case. -/
def currentAB3 : Json := .obj [("a", .num 1), ("b", .num 3)]

/-- The change list `diffLines(JSON.stringify(baselineAB2, null, 2),
JSON.stringify(currentAB3, null, 2))` produces: the two common leading lines
unchanged in one part, the `"b"` line as a removed/added pair, the closing
brace unchanged. Its fidelity to the two serializations is proved inside the
claim's theorem: the non-added values concatenate to the baseline text and
the non-removed values to the current text. -/
def diffsAB : List Change :=
  [ { value := "\x7b\n  \"a\": 1,\n", added := false, removed := false }
  , { value := "  \"b\": 2\n",     added := false, removed := true }
  , { value := "  \"b\": 3\n",     added := true,  removed := false }
  , { value := "\x7d",                added := false, removed := false } ]

/-- Claim C4 — The value classifier `FormField.getFieldType` checks boolean
first, then array, then non-null object, else primitive, and agrees with the
spec's classification on every JSON value: booleans are `boolean`, arrays
(including the empty array) are `array`, non-null non-array mappings are
`object`, strings and numbers are `primitive`, and null is defensively
`primitive`. -/
theorem getFieldType_spec : ∀ v : Json, getFieldType v = classifySpec v := by
  intro v
  cases v <;> rfl

/-- Claim C5 — Removing the item at index `i` (`splice(index, 1)` in
`ArrayField.createDeleteButton`) from an array of length `N` with `i < N`
yields length exactly `N - 1`, keeps every element before `i` unchanged, and
shifts every element formerly after `i` down by one index. -/
theorem spliceRemove_spec (l : List Json) (i : Nat) (h : i < l.length) :
    (spliceRemove l i).length = l.length - 1 ∧
    (∀ j, j < i → (spliceRemove l i)[j]? = l[j]?) ∧
    (∀ j, i ≤ j → (spliceRemove l i)[j]? = l[j + 1]?) := by
  induction l generalizing i with
  | nil => cases h
  | cons x xs ih =>
    cases i with
    | zero =>
      refine ⟨by simp [spliceRemove], fun j hj => absurd hj (Nat.not_lt_zero j), fun j _ => ?_⟩
      simp [spliceRemove]
    | succ i =>
      have h' : i < xs.length := Nat.lt_of_succ_lt_succ (by simpa using h)
      obtain ⟨h1, h2, h3⟩ := ih i h'
      refine ⟨?_, ?_, ?_⟩
      · simp only [spliceRemove, List.length_cons, h1]
        omega
      · intro j hj
        cases j with
        | zero => simp [spliceRemove]
        | succ j => simpa [spliceRemove] using h2 j (Nat.lt_of_succ_lt_succ hj)
      · intro j hij
        cases j with
        | zero => cases hij
        | succ j => simpa [spliceRemove] using h3 j (Nat.le_of_succ_le_succ hij)

/-- Witness for C5 at the concrete array `[10, 20, 30]`, removing index 1. -/
theorem spliceRemove_spec_witness :
    (spliceRemove [Json.num 10, Json.num 20, Json.num 30] 1).length = 2 ∧
    (spliceRemove [Json.num 10, Json.num 20, Json.num 30] 1)[0]? = some (Json.num 10) ∧
    (spliceRemove [Json.num 10, Json.num 20, Json.num 30] 1)[1]? = some (Json.num 30) := by
  obtain ⟨h1, h2, h3⟩ :=
    spliceRemove_spec [Json.num 10, Json.num 20, Json.num 30] 1 (by decide)
  exact ⟨by simpa using h1, by simpa using h2 0 (by decide), by simpa using h3 1 (by decide)⟩

/-- Claim C1 counterexample — On the non-empty array `[pageItem]` (the pages
example), the first `ArrayField` variant's add-item appends a full deep clone
of the existing item, not a structural clone with string fields blanked: the
result is `[pageItem, pageItem]` and differs from `[pageItem] ++
[blankedPageItem]`, refuting the claim as stated. -/
theorem addItem_blanks_counterexample :
    handleAddItemV1 [pageItem] (some (jsonDeepClone pageItem))
        = [pageItem] ++ [pageItem] ∧
    handleAddItemV1 [pageItem] (some (jsonDeepClone pageItem))
        ≠ [pageItem] ++ [blankedPageItem] := by
  exact ⟨by decide, by decide⟩

/-- Claim C1 amended — For every non-empty array, add-item appends exactly one
new element: the result is the original array followed by one synthesized
item, so the length grows by exactly 1 and all pre-existing elements are
unchanged. The synthesized value differs between the two `ArrayField`
variants: the first appends `generateNewItemFromTemplate` of the last item —
for object items a full deep clone with no fields blanked — while the second
appends `createTemplate` of the first item — for object items a structural
clone of the key set with every field blanked to the empty string (in
particular string fields blanked, as in the pages example). -/
theorem addItem_amended (l : List Json) (h : l ≠ []) (tmpl : Option Json) :
    handleAddItemV1 l tmpl = l ++ [generateNewItemFromTemplate (l.getLast h)] ∧
    (handleAddItemV2 (arrayFieldInit l)).arrayData = l ++ [createTemplate (l.head h)] ∧
    (handleAddItemV1 l tmpl).length = l.length + 1 ∧
    ((handleAddItemV2 (arrayFieldInit l)).arrayData).length = l.length + 1 ∧
    (handleAddItemV1 l tmpl).take l.length = l ∧
    ((handleAddItemV2 (arrayFieldInit l)).arrayData).take l.length = l := by
  have hlen : 0 < l.length := List.length_pos.mpr h
  have hV1 : handleAddItemV1 l tmpl = l ++ [generateNewItemFromTemplate (l.getLast h)] := by
    unfold handleAddItemV1
    have hidx : l[l.length - 1]? = some (l.getLast h) := by
      rw [← List.getLast?_eq_getElem?, List.getLast?_eq_getLast l h]
    simp [if_pos hlen, hidx]
  have hV2 : (handleAddItemV2 (arrayFieldInit l)).arrayData
      = l ++ [createTemplate (l.head h)] := by
    cases l with
    | nil => exact absurd rfl h
    | cons x xs => simp [arrayFieldInit, handleAddItemV2, jsonDeepClone]
  refine ⟨hV1, hV2, ?_, ?_, ?_, ?_⟩
  · rw [hV1]; simp
  · rw [hV2]; simp
  · rw [hV1]; exact List.take_left l _
  · rw [hV2]; exact List.take_left l _

/-- Witness for the amended C1 at the pages example: the first variant
appends the unblanked clone, the second the blanked structural clone. -/
theorem addItem_amended_witness :
    handleAddItemV1 [pageItem] (some pageItem) = [pageItem] ++ [pageItem] ∧
    (handleAddItemV2 (arrayFieldInit [pageItem])).arrayData
        = [pageItem] ++ [blankedPageItem] := by
  obtain ⟨h1, h2, -⟩ := addItem_amended [pageItem] (by decide) (some pageItem)
  constructor
  · rw [h1]; decide
  · rw [h2]; decide

/-- Claim C3 — An add-field attempt on the top-level document is rejected with
a user-visible error and leaves the document completely unchanged when the
trimmed key is empty, already present, or a member of the required-field
set; otherwise the key is inserted with the chosen type's default value. -/
theorem addField_spec (fields : Doc) (rawKey : String) (ftype : FieldType) :
    ((jsTrim rawKey = "" ∨ hasKey fields (jsTrim rawKey) = true ∨
        jsTrim rawKey ∈ requiredFields) →
      (handleAddField fields rawKey ftype).2 = fields ∧
      ∃ msg, (handleAddField fields rawKey ftype).1 = .rejected msg) ∧
    (jsTrim rawKey ≠ "" → hasKey fields (jsTrim rawKey) = false →
      jsTrim rawKey ∉ requiredFields →
      (handleAddField fields rawKey ftype).1 = .added ∧
      (handleAddField fields rawKey ftype).2
        = insertKey fields (jsTrim rawKey) (initialValueFor ftype)) := by
  constructor
  · rintro (h | h | h)
    · simp [handleAddField, h]
    · by_cases he : jsTrim rawKey = "" <;> simp [handleAddField, he, h]
    · by_cases he : jsTrim rawKey = "" <;>
        by_cases hk : hasKey fields (jsTrim rawKey) <;>
          simp [handleAddField, he, hk, h]
  · intro h1 h2 h3
    simp [handleAddField, h1, h2, h3]

/-- Witness for C3: adding key `"pages"` (a required field) to a sample
document is rejected and leaves it unchanged, while adding `" theme "`
(which trims to the fresh key `"theme"`) of type number succeeds and
appends `theme: 0`. -/
theorem addField_spec_witness :
    ((handleAddField [("publisherId", Json.str "aurora")] "pages" FieldType.number).2
        = [("publisherId", Json.str "aurora")] ∧
      ∃ msg,
        (handleAddField [("publisherId", Json.str "aurora")] "pages" FieldType.number).1
          = .rejected msg) ∧
    ((handleAddField [("publisherId", Json.str "aurora")] " theme " FieldType.number).1
        = .added ∧
      (handleAddField [("publisherId", Json.str "aurora")] " theme " FieldType.number).2
        = [("publisherId", Json.str "aurora"), ("theme", Json.num 0)]) := by
  constructor
  · exact (addField_spec _ "pages" _).1 (Or.inr (Or.inr (by decide)))
  · obtain ⟨ha, hb⟩ :=
      (addField_spec [("publisherId", Json.str "aurora")] " theme " FieldType.number).2
        (by decide) (by decide) (by decide)
    exact ⟨ha, by rw [hb]; decide⟩

/-- Claim C6 — When the current document equals the baseline snapshot by
serialized form, `saveChanges` short-circuits with the "no changes" notice:
no save request is issued and the store — current content and version
history alike — is left unchanged, whatever its state and whatever the user
would answer in the confirm dialog. -/
theorem saveChanges_noop (publisherConfig initialConfig : Json)
    (h : stringifyCompact publisherConfig = stringifyCompact initialConfig) :
    saveChanges publisherConfig initialConfig = .noChangesNotice ∧
    ∀ (store : StoreState) (confirmed : Bool),
      saveChangesEffect publisherConfig initialConfig store confirmed = store := by
  have hs : saveChanges publisherConfig initialConfig = .noChangesNotice := by
    simp [saveChanges, h]
  exact ⟨hs, fun store confirmed => by simp [saveChangesEffect, hs]⟩

/-- Witness for C6 on a concrete store with one saved version. -/
theorem saveChanges_noop_witness :
    saveChanges baselineAB2 baselineAB2 = .noChangesNotice ∧
    saveChangesEffect baselineAB2 baselineAB2
        { content := some baselineAB2, historyDir := some [1] } true
      = { content := some baselineAB2, historyDir := some [1] } := by
  obtain ⟨h1, h2⟩ := saveChanges_noop baselineAB2 baselineAB2 rfl
  exact ⟨h1, h2 _ true⟩

/-- Claim C8 — Within one `PrimitiveField` instance the written-back value
never changes JavaScript type across any sequence of edits: a number-origin
field always writes back `Number(input)` — propagated as-is even when NaN,
input is not blocked — and a string-origin field always writes back the raw
input string. -/
theorem primitiveField_type_stable (initial : PrimValue) (edits : List String) :
    (∀ v ∈ primitiveFieldWrites initial edits, primTypeof v = primTypeof initial) ∧
    (∀ x, initial = .num x →
      primitiveFieldWrites initial edits
        = edits.map (fun e => .num (jsNumberOfText e))) ∧
    (∀ s, initial = .str s →
      primitiveFieldWrites initial edits = edits.map PrimValue.str) := by
  refine ⟨?_, ?_, ?_⟩
  · intro v hv
    simp only [primitiveFieldWrites, List.mem_map] at hv
    obtain ⟨e, -, rfl⟩ := hv
    cases initial <;> simp [primitiveFieldWriteBack, primTypeof]
  · rintro x rfl
    simp [primitiveFieldWrites, primitiveFieldWriteBack, primTypeof]
  · rintro s rfl
    simp [primitiveFieldWrites, primitiveFieldWriteBack, primTypeof]

/-- Witness for C8: a number-origin field keeps writing numbers — NaN for
non-numeric text — and a string-origin field keeps writing raw strings. -/
theorem primitiveField_type_stable_witness :
    primitiveFieldWrites (.num (.int 7)) ["12", "abc"]
        = [.num (.int 12), .num .nan] ∧
    primitiveFieldWrites (.str "top") ["left"] = [.str "left"] := by
  have h1 := (primitiveField_type_stable (.num (.int 7)) ["12", "abc"]).2.1 (.int 7) rfl
  have h2 := (primitiveField_type_stable (.str "top") ["left"]).2.2 "top" rfl
  exact ⟨by rw [h1]; decide, by rw [h2]; decide⟩

/-- Claim C9 — For a document whose store-returned version list is non-empty
(strictly descending, as the store sorts it), the compare dropdown omits the
newest version: `loadVersions` drops the first element, the selectable
versions are exactly the tail, the newest (head, highest-numbered) version
is not among them, and the dropdown offers `"current"` plus one option per
remaining version. -/
theorem compareDropdown_omits_newest (vs : List Nat) (h : vs ≠ [])
    (hsorted : List.Sorted (· > ·) vs) :
    loadVersionsAvailable vs = vs.tail ∧
    vs.head h ∉ loadVersionsAvailable vs ∧
    versionSelectOptionValues (loadVersionsAvailable vs)
      = "current" :: vs.tail.map toString := by
  cases vs with
  | nil => exact absurd rfl h
  | cons x xs =>
    have hx : ∀ b ∈ xs, x > b := (List.sorted_cons.mp hsorted).1
    refine ⟨by simp [loadVersionsAvailable], ?_, ?_⟩
    · simp only [List.head_cons, loadVersionsAvailable]
      intro hm
      simp at hm
      exact absurd (hx x hm) (lt_irrefl x)
    · simp [loadVersionsAvailable, versionSelectOptionValues]

/-- Witness for C9 at the version list `[3, 2, 1]`. -/
theorem compareDropdown_omits_newest_witness :
    loadVersionsAvailable [3, 2, 1] = [2, 1] ∧
    3 ∉ loadVersionsAvailable [3, 2, 1] ∧
    versionSelectOptionValues (loadVersionsAvailable [3, 2, 1])
      = ["current", "2", "1"] := by
  obtain ⟨h1, h2, h3⟩ := compareDropdown_omits_newest [3, 2, 1] (by decide) (by decide)
  exact ⟨h1, by simpa using h2, by simpa using h3⟩

/-- Claim C10 — When the history directory for a document does not exist, the
versions endpoint succeeds with the empty list: absence of versions is never
reported as a failure. -/
theorem listVersions_absent (s : StoreState) (h : s.historyDir = none) :
    getVersionsEndpoint s = .ok [] ∧ getVersionsEndpoint s ≠ .serverError := by
  simp [getVersionsEndpoint, h]

/-- Witness for C10 on a store whose data file exists but has no history. -/
theorem listVersions_absent_witness :
    getVersionsEndpoint { content := some baselineAB2, historyDir := none } = .ok [] ∧
    getVersionsEndpoint { content := some baselineAB2, historyDir := none }
      ≠ .serverError :=
  listVersions_absent _ rfl

/-- After a PUT, the maximum existing version is the version just assigned:
the new snapshot's number exceeds all previous ones. -/
theorem storeMaxVersion_put (s : StoreState) (b : Json) :
    storeMaxVersion (putPublisher s b).1 = storeMaxVersion s + 1 := by
  simp only [storeMaxVersion, putPublisher, Option.getD_some, List.foldr_cons]
  exact Nat.max_eq_left (Nat.le_succ _)

/-- A sequence of saves returns the consecutive version numbers starting
just above the maximum existing version. -/
theorem saveSeq_eq_range' (bodies : List Json) : ∀ s : StoreState,
    saveSeq s bodies = List.range' (storeMaxVersion s + 1) bodies.length := by
  induction bodies with
  | nil => intro s; rfl
  | cons b bs ih =>
      intro s
      rw [List.length_cons, List.range'_succ _ _ 1]
      show (putPublisher s b).2 :: saveSeq (putPublisher s b).1 bs = _
      rw [ih (putPublisher s b).1, storeMaxVersion_put]
      rfl

/-- Claim C7 — Version assignment and listing: every save returns one more
than the maximum existing version and strictly exceeds every existing
version; across any sequence of saves the returned version numbers are
strictly increasing integers; `initializeHistory` snapshots the first
observed content as version 1, so the first editor save after history
initialization returns version 2; and the versions endpoint returns the
stored version numbers (a permutation of them) sorted in descending order,
newest first. -/
theorem saveVersioning_spec (s0 : StoreState) (c : Json) (body : Json)
    (bodies : List Json) (hdir : s0.historyDir = none)
    (hcontent : s0.content = some c) :
    (∀ (s : StoreState) (b : Json),
      (putPublisher s b).2 = storeMaxVersion s + 1 ∧
      ∀ v ∈ s.historyDir.getD [], v < (putPublisher s b).2) ∧
    (∀ s : StoreState, List.Pairwise (· < ·) (saveSeq s bodies)) ∧
    (initializeHistory s0).historyDir = some [1] ∧
    (putPublisher (initializeHistory s0) body).2 = 2 ∧
    (∀ (s : StoreState) (vs : List Nat), s.historyDir = some vs →
      getVersionsEndpoint s = .ok (sortDesc vs) ∧
      List.Sorted (· ≥ ·) (sortDesc vs) ∧ List.Perm (sortDesc vs) vs) := by
  refine ⟨?_, ?_, ?_, ?_, ?_⟩
  · intro s b
    refine ⟨rfl, fun v hv => ?_⟩
    have hle : ∀ (l : List Nat), v ∈ l → v ≤ l.foldr max 0 := by
      intro l
      induction l with
      | nil => intro hvl; cases hvl
      | cons x xs ih =>
          intro hvl
          rcases List.mem_cons.mp hvl with rfl | hv'
          · exact le_max_left _ _
          · exact le_trans (ih hv') (le_max_right _ _)
    exact Nat.lt_succ_of_le (hle _ hv)
  · intro s
    rw [saveSeq_eq_range' bodies s]
    exact List.pairwise_lt_range' _ _ 1 (by omega)
  · simp [initializeHistory, hdir, hcontent]
  · have h1 : (initializeHistory s0).historyDir = some [1] := by
      simp [initializeHistory, hdir, hcontent]
    simp [putPublisher, h1]
  · intro s vs hvs
    exact ⟨by simp [getVersionsEndpoint, hvs], List.sorted_insertionSort _ vs,
      List.perm_insertionSort _ vs⟩

/-- Witness for C7: a fresh store is initialized to version 1, the first
save then returns 2; two further saves return the strictly increasing pair
`[2, 3]`; and the endpoint lists `[1, 3, 2]` as `[3, 2, 1]`. -/
theorem saveVersioning_spec_witness :
    (initializeHistory { content := some baselineAB2, historyDir := none }).historyDir
        = some [1] ∧
    (putPublisher
        (initializeHistory { content := some baselineAB2, historyDir := none })
        currentAB3).2 = 2 ∧
    saveSeq (initializeHistory { content := some baselineAB2, historyDir := none })
        [currentAB3, baselineAB2] = [2, 3] ∧
    List.Pairwise (· < ·)
      (saveSeq (initializeHistory { content := some baselineAB2, historyDir := none })
        [currentAB3, baselineAB2]) ∧
    getVersionsEndpoint { content := some currentAB3, historyDir := some [1, 3, 2] }
        = .ok [3, 2, 1] := by
  obtain ⟨-, hmono, hinit, hfirst, hlist⟩ :=
    saveVersioning_spec { content := some baselineAB2, historyDir := none }
      baselineAB2 currentAB3 [currentAB3, baselineAB2] rfl rfl
  refine ⟨hinit, hfirst, by decide,
    hmono (initializeHistory { content := some baselineAB2, historyDir := none }), ?_⟩
  have h := (hlist { content := some currentAB3, historyDir := some [1, 3, 2] }
    [1, 3, 2] rfl).1
  rw [h]
  decide

/-- The scan `hasSubstring` decides the `List.IsInfix` relation. -/
theorem hasSubstring_iff_infix (pat : List Char) : ∀ l : List Char,
    hasSubstring pat l = true ↔ pat <:+: l := by
  intro l
  induction l with
  | nil =>
      simp [hasSubstring, List.isEmpty_iff]
  | cons c rest ih =>
      simp [hasSubstring, List.infix_cons_iff, ih, List.isPrefixOf_iff_prefix]

set_option maxRecDepth 2000 in
/-- Claim C2 code-bug evidence — On the concrete case baseline
`{"a":1,"b":2}` vs current `{"a":1,"b":3}`: the four-part change list
reconstructs the two 2-space serializations exactly (non-added values
concatenate to the baseline text, non-removed values to the current text);
the five rendered lines are classified
unchanged/unchanged/removed/added/unchanged with content markers
`"  ", "  ", "- ", "+ ", "  "`; the two counters advance exactly as the
claim states — `lineNumDisplay` values `"1  1", "2  2", "3", "3", "4  4"`
and counter pairs after each line `(2,2), (3,3), (4,3), (4,4), (5,5)`, so
old and new diverge by exactly one each across the removed/added pair for
key `"b"` — BUT the emitted HTML never contains the computed line-number
display (the string `"1  1"` occurs nowhere in it): each rendered line's
`diff-line__number` cell holds the content marker instead, so the rendered
lines do not carry the line counters the claim (and spec §4.7) describe. -/
theorem diffRenderer_concrete_case :
    String.join ((diffsAB.filter (fun c => !c.added)).map Change.value)
        = stringifyPretty baselineAB2 ∧
    String.join ((diffsAB.filter (fun c => !c.removed)).map Change.value)
        = stringifyPretty currentAB3 ∧
    (createDiffLines diffsAB).map DiffLine.type
        = [.unchanged, .unchanged, .removed, .added, .unchanged] ∧
    (createDiffLines diffsAB).map DiffLine.contentMarker
        = ["  ", "  ", "- ", "+ ", "  "] ∧
    (createDiffLines diffsAB).map DiffLine.lineNumDisplay
        = ["1  1", "2  2", "3", "3", "4  4"] ∧
    (createDiffLines diffsAB).map (fun l => (l.oldAfter, l.newAfter))
        = [(2, 2), (3, 3), (4, 3), (4, 4), (5, 5)] ∧
    ¬ ("1  1".data <:+: (createDiffHtml diffsAB).data) := by
  refine ⟨by decide, by decide, by decide, by decide, by decide, by decide, ?_⟩
  rw [← hasSubstring_iff_infix]
  decide
